import Mathlib

/-!
Verification development for the pyskoob client library.

This file gives a shallow embedding in Lean 4 of the parts of the library
that the specification talks about: the `RateLimiter`, the
`ExponentialBackoff` helper, the retry loop of the httpx client wrappers,
the authentication flow of `AuthService`, the `get_by_id` error paths of
`BookService` and `UserService`, the `_clean_book_json_data` normalizer,
and the HTML-scraping endpoints (`BookService.search`,
`BookService.get_reviews`, `BookService.get_users_by_status`,
`UserService.search`) together with the `Pagination` wrapper they return.

Machine reals from the Python code (timestamps, delays, ratings) are
modelled as exact rationals, HTML pages as a small DOM tree with the
BeautifulSoup search order, and JSON bodies as a first-order JSON value
type.  Exceptions become `Option`/`Except` results.
-/

namespace Pyskoob

/-! ## Python string helpers -/

/-- Python `str.strip()` (and bs4 `strip=True`): trim whitespace at both ends. -/
def pyStrip (s : String) : String :=
  String.mk (((s.toList.dropWhile Char.isWhitespace).reverse.dropWhile
    Char.isWhitespace).reverse)

/-- `listStartsWith p l` is true when `p` is an initial segment of `l`. -/
def listStartsWith : List Char → List Char → Bool
  | [], _ => true
  | _ :: _, [] => false
  | p :: ps, c :: cs => p == c && listStartsWith ps cs

/-- `listContainsSub pat l` is true when `pat` occurs as a contiguous
subsequence of `l` (Python `pat in s`, also `re.search` of a literal). -/
def listContainsSub (pat : List Char) : List Char → Bool
  | [] => listStartsWith pat []
  | c :: cs => listStartsWith pat (c :: cs) || listContainsSub pat cs

/-- Python `pat in s` for strings. -/
def strContains (s pat : String) : Bool := listContainsSub pat.toList s.toList

/-- Digits of a decimal string to a natural number (fold, most significant first). -/
def digitsToNat (cs : List Char) : ℕ := cs.foldl (fun a c => a * 10 + (c.toNat - 48)) 0

/-- Suffix of `l` just after the first occurrence of `pat`, if any. -/
def afterFirst (pat : List Char) : List Char → Option (List Char)
  | [] => if pat.isEmpty then some [] else none
  | c :: cs =>
    if listStartsWith pat (c :: cs) then some ((c :: cs).drop pat.length)
    else afterFirst pat cs

/-- Try a positional matcher at every start position, left to right
(`re.search` strategy). -/
def searchPos (f : List Char → Option α) : List Char → Option α
  | [] => f []
  | c :: cs =>
    match f (c :: cs) with
    | some a => some a
    | none => searchPos f cs

/-- Python `str.replace(pat, repl)`: replace every occurrence (left to
right, non-overlapping).  Used with a non-empty `pat` only. -/
def listReplace (pat repl : List Char) (l : List Char) : List Char :=
  match l with
  | [] => []
  | c :: cs =>
    if pat.length != 0 && listStartsWith pat (c :: cs) then
      repl ++ listReplace pat repl ((c :: cs).drop pat.length)
    else
      c :: listReplace pat repl cs
termination_by l.length
decreasing_by
  · simp only [List.length_drop, List.length_cons]
    have hp : 1 ≤ pat.length := by
      rcases Nat.eq_zero_or_pos pat.length with h | h
      · simp_all
      · exact h
    omega
  · simp

/-- Python `str.replace` on `String`. -/
def pyReplace (s pat repl : String) : String :=
  String.mk (listReplace pat.toList repl.toList s.toList)

/-- Python `s.split(sep)` for a non-empty separator, on character lists:
split at every non-overlapping occurrence, keeping empty pieces. -/
def splitOnL (sep : List Char) : List Char → List (List Char)
  | [] => [[]]
  | c :: cs =>
    if sep.length != 0 && listStartsWith sep (c :: cs) then
      [] :: splitOnL sep ((c :: cs).drop sep.length)
    else
      match splitOnL sep cs with
      | [] => [[c]]
      | h :: t => (c :: h) :: t
termination_by l => l.length
decreasing_by
  · simp only [List.length_drop, List.length_cons]
    have hp : 1 ≤ sep.length := by
      rcases Nat.eq_zero_or_pos sep.length with h | h
      · simp_all
      · exact h
    omega
  · simp

/-- Python `s.split(sep)` (non-empty `sep`) on strings. -/
def pySplit (s sep : String) : List String :=
  (splitOnL sep.toList s.toList).map String.mk

/-- Whitespace-separated tokens of a character list (the first argument
accumulates the current token in reverse). -/
def wsTokens : List Char → List Char → List String
  | acc, [] => if acc.isEmpty then [] else [String.mk acc.reverse]
  | acc, c :: rest =>
    if c.isWhitespace then
      (if acc.isEmpty then [] else [String.mk acc.reverse]) ++ wsTokens [] rest
    else wsTokens (c :: acc) rest

/-- All characters are decimal digits and the list is non-empty. -/
def allDigits1 (cs : List Char) : Bool := !cs.isEmpty && cs.all (·.isDigit)

/-- Python `int(s)` on a decimal string: strips whitespace, allows one
leading sign, requires at least one digit.  `none` models `ValueError`.
(Underscore digit separators are not modelled.) -/
def pyIntOpt (s : String) : Option ℤ :=
  let cs := (pyStrip s).toList
  match cs with
  | [] => none
  | c :: rest =>
    if c == '-' then
      if allDigits1 rest then some (-(digitsToNat rest : ℤ)) else none
    else if c == '+' then
      if allDigits1 rest then some (digitsToNat rest : ℤ) else none
    else
      if allDigits1 (c :: rest) then some (digitsToNat (c :: rest) : ℤ) else none

/-- Value of `ip . fp` as a rational. -/
def decimalToRat (ip fp : List Char) : ℚ :=
  (digitsToNat ip : ℚ) + (digitsToNat fp : ℚ) / ((10 : ℚ) ^ fp.length)

/-- Python `float(s)` restricted to plain decimal literals: optional sign,
`digits`, `digits.digits`, `.digits` or `digits.`.  `none` models
`ValueError`.  (Exponents, `inf` and `nan` are not modelled; the scraped
rating strings are plain decimals.) -/
def pyFloatOpt (s : String) : Option ℚ :=
  let cs := (pyStrip s).toList
  let signed : Bool × List Char :=
    match cs with
    | c :: rest =>
      if c == '-' then (true, rest)
      else if c == '+' then (false, rest) else (false, c :: rest)
    | [] => (false, [])
  let neg := signed.1
  let body := signed.2
  let ip := body.takeWhile (·.isDigit)
  let rest := body.drop ip.length
  let val? : Option ℚ :=
    match rest with
    | [] => if ip.isEmpty then none else some (decimalToRat ip [])
    | c :: rest2 =>
      if c == '.' then
        let fp := rest2.takeWhile (·.isDigit)
        if rest2.drop fp.length != [] then none
        else if ip.isEmpty && fp.isEmpty then none
        else some (decimalToRat ip fp)
      else none
  val?.map (fun v => if neg then -v else v)

/-! ## URL parsing (`urllib.parse.urlparse().path` and the Skoob id extractors) -/

/-- Path component of a URL: drop `scheme://netloc`, cut query and fragment. -/
def urlPath (url : String) : String :=
  let cs := url.toList
  let cs1 :=
    match afterFirst "://".toList cs with
    | some rest => rest.dropWhile (· ≠ '/')
    | none => cs
  String.mk ((cs1.takeWhile (· ≠ '?')).takeWhile (· ≠ '#'))

/-- First maximal run of digits in the list, if any (`re.search(r"(\d+)")`). -/
def firstDigitRun : List Char → Option (List Char)
  | [] => none
  | c :: cs => if c.isDigit then some (c :: cs.takeWhile (·.isDigit)) else firstDigitRun cs

/-- Positional matcher for `ed(\d+)`. -/
def matchEdAt (cs : List Char) : Option (List Char) :=
  match cs with
  | a :: b :: rest =>
    if a == 'e' && b == 'd' then
      let run := rest.takeWhile (·.isDigit)
      if run.isEmpty then none else some run
    else none
  | _ => none

/-- Positional matcher for `/usuario/(\d+)`. -/
def matchUserIdAt (cs : List Char) : Option (List Char) :=
  if listStartsWith "/usuario/".toList cs then
    let run := (cs.drop 9).takeWhile (·.isDigit)
    if run.isEmpty then none else some run
  else none

/-- `get_book_id_from_url`: first digit run of the URL path;
`none` models the `ValueError` raised when no digit occurs. -/
def get_book_id_from_url (url : String) : Option String :=
  (firstDigitRun (urlPath url).toList).map String.mk

/-- `get_book_edition_id_from_url`: digits after the first `ed` in the path. -/
def get_book_edition_id_from_url (url : String) : Option String :=
  (searchPos matchEdAt (urlPath url).toList).map String.mk

/-- `get_user_id_from_url`: digits after the first `/usuario/` in the path. -/
def get_user_id_from_url (url : String) : Option String :=
  (searchPos matchUserIdAt (urlPath url).toList).map String.mk

/-! ## JSON values

JSON bodies are modelled first-order.  Numbers are restricted to the
integers actually seen in the scraped API; objects are insertion-ordered
association lists as in CPython dicts. -/

inductive JVal where
  | jnull : JVal
  | jbool (b : Bool) : JVal
  | jnum (n : ℤ) : JVal
  | jstr (s : String) : JVal
  | jarr (xs : List JVal) : JVal
  | jobj (fs : List (String × JVal)) : JVal

/-- Lookup of a key in an object field list (first match wins). -/
def lookupField : List (String × JVal) → String → Option JVal
  | [], _ => none
  | (k0, v0) :: rest, k => if k0 == k then some v0 else lookupField rest k

/-- Python `dict.get(k)` (only objects carry keys). -/
def JVal.get : JVal → String → Option JVal
  | .jobj fs, k => lookupField fs k
  | _, _ => none

/-- Python truthiness of a JSON-decoded value. -/
def JVal.truthy : JVal → Bool
  | .jnull => false
  | .jbool b => b
  | .jnum n => n != 0
  | .jstr s => !s.isEmpty
  | .jarr xs => !xs.isEmpty
  | .jobj fs => !fs.isEmpty

/-- Python dict assignment `d[k] = v`: update in place, else append. -/
def setField : List (String × JVal) → String → JVal → List (String × JVal)
  | [], k, v => [(k, v)]
  | (k0, v0) :: rest, k, v =>
    if k0 == k then (k0, v) :: rest else (k0, v0) :: setField rest k v

mutual

/-- Python `str()` of a JSON-decoded value.  Scalars are exact; for the
container cases (never produced for the fields this is applied to) the
elements are joined without Python `repr` quoting — the only property the
code relies on is that the result is not the string `"0"`, which holds. -/
def pyStr : JVal → String
  | .jnull => "None"
  | .jbool true => "True"
  | .jbool false => "False"
  | .jnum n => toString n
  | .jstr s => s
  | .jarr xs => "[" ++ pyStrJoin xs ++ "]"
  | .jobj fs => "\x7b" ++ pyStrJoinKV fs ++ "\x7d"

/-- Comma-joined stringification of a list of JSON values. -/
def pyStrJoin : List JVal → String
  | [] => ""
  | [x] => pyStr x
  | x :: y :: rest => pyStr x ++ ", " ++ pyStrJoin (y :: rest)

/-- Comma-joined stringification of object fields. -/
def pyStrJoinKV : List (String × JVal) → String
  | [] => ""
  | [(k, v)] => k ++ ": " ++ pyStr v
  | (k, v) :: y :: rest => k ++ ": " ++ pyStr v ++ ", " ++ pyStrJoinKV (y :: rest)

end

/-- Python `f"..."` interpolation of an optional attribute value:
`None` prints as the string `None`. -/
def pyStrOptStr : Option String → String
  | none => "None"
  | some s => s

/-! ## `ExponentialBackoff` (`pyskoob/utils/backoff.py`) -/

/-- The `ExponentialBackoff` configuration.  `max_retries` is validated
non-negative by `__init__`, so it is a natural number here; the float
fields are exact rationals. -/
structure ExponentialBackoff where
  max_retries : ℕ
  base_delay : ℚ
  factor : ℚ
  max_delay : ℚ
deriving Repr

/-- `ExponentialBackoff._compute_delay`: `delay = base_delay * factor**attempt`,
then `min(delay, max_delay)`. -/
def ExponentialBackoff.compute_delay (b : ExponentialBackoff) (attempt : ℕ) : ℚ :=
  let delay := b.base_delay * b.factor ^ attempt
  min delay b.max_delay

/-! ## The httpx client retry loop (`pyskoob/http/httpx.py`) -/

/-- Outcome of one underlying `httpx` call, supplied as an oracle indexed
by the attempt number. -/
inductive AttemptOutcome where
  | success (status : ℕ) : AttemptOutcome
  | httpError : AttemptOutcome
  | otherError : AttemptOutcome
deriving DecidableEq, Repr

/-- Result of `HttpxSyncClient.get`/`post` (and the async variants):
either a response, or an exception reaching the caller. -/
inductive ReqResult where
  | ok (status : ℕ) : ReqResult
  | transportRaised : ReqResult
  | otherRaised : ReqResult
deriving DecidableEq, Repr

/-- One iteration of the `for attempt in range(max_retries + 1)` loop:
try the call; on `httpx.HTTPError` re-raise at the last attempt, otherwise
back off and continue; any other exception propagates at once.  The fuel
argument is `max_retries + 1 - attempt` and never reaches `0` before the
loop exits. -/
def httpxLoop (oracle : ℕ → AttemptOutcome) (maxRetries : ℕ) :
    ℕ → ℕ → ReqResult × ℕ
  | attempt, 0 => (.transportRaised, attempt)
  | attempt, fuel + 1 =>
    match oracle attempt with
    | .success s => (.ok s, attempt + 1)
    | .otherError => (.otherRaised, attempt + 1)
    | .httpError =>
      if maxRetries ≤ attempt then (.transportRaised, attempt + 1)
      else httpxLoop oracle maxRetries (attempt + 1) fuel

/-- `HttpxSyncClient.get` (identically `post` and the async variants):
run the retry loop from attempt `0`.  Returns the result together with the
number of underlying call attempts made. -/
def httpxRequest (maxRetries : ℕ) (oracle : ℕ → AttemptOutcome) : ReqResult × ℕ :=
  httpxLoop oracle maxRetries 0 (maxRetries + 1)

/-! ## `RateLimiter` (`pyskoob/utils/rate_limiter.py`)

Timestamps are exact rationals from a monotone clock.  `acquire` and
`acquire_async` share the same arithmetic (they differ only in which sleep
primitive and which mutex they use), so one step function models both. -/

/-- `RateLimiter._trim`: pop queue entries `c` while `now - c >= period`. -/
def trimCalls (period now : ℚ) : List ℚ → List ℚ
  | [] => []
  | c :: rest => if period ≤ now - c then trimCalls period now rest else c :: rest

/-- Input of one `acquire` call in the monotone clock model: the value of
`time.monotonic()` at entry, and how much longer than the requested
duration the sleep actually took (`slack ≥ 0`). -/
structure AcqInput where
  now : ℚ
  slack : ℚ
deriving Repr

/-- `RateLimiter.acquire` / `acquire_async` body: trim at `now`; if the
queue is still at capacity, sleep for `period - (now - calls[0])`, re-read
the clock, trim again; then append the current time.  Returns the new
queue and the recorded timestamp.  (The `[]` inner case models the
`IndexError` state `max_calls = 0`, which the claims exclude.) -/
def acquireStep (maxCalls : ℕ) (period : ℚ) (calls : List ℚ) (inp : AcqInput) :
    List ℚ × ℚ :=
  let s1 := trimCalls period inp.now calls
  if maxCalls ≤ s1.length then
    match s1 with
    | [] => (s1 ++ [inp.now], inp.now)
    | c0 :: _ =>
      let sleepFor := period - (inp.now - c0)
      let now2 := inp.now + sleepFor + inp.slack
      let s2 := trimCalls period now2 s1
      (s2 ++ [now2], now2)
  else (s1 ++ [inp.now], inp.now)

/-- Run a sequence of `acquire` calls from a queue state; returns the final
queue and the list of recorded timestamps in order. -/
def runAcquires (maxCalls : ℕ) (period : ℚ) :
    List ℚ → List AcqInput → List ℚ × List ℚ
  | calls, [] => (calls, [])
  | calls, inp :: rest =>
    let step := acquireStep maxCalls period calls inp
    let tail := runAcquires maxCalls period step.1 rest
    (tail.1, step.2 :: tail.2)

/-- Validity of an input sequence under the monotone clock model: each
sleep takes at least the requested time (`slack ≥ 0`) and the clock read
at entry is not earlier than the time at which the previous acquire
finished. -/
def ValidRun (maxCalls : ℕ) (period : ℚ) : List ℚ → ℚ → List AcqInput → Prop
  | _, _, [] => True
  | calls, tprev, inp :: rest =>
    tprev ≤ inp.now ∧ 0 ≤ inp.slack ∧
      ValidRun maxCalls period (acquireStep maxCalls period calls inp).1
        (acquireStep maxCalls period calls inp).2 rest

/-- Number of timestamps of `hist` inside the half-open window
`[t, t + period)`. -/
def windowCount (period : ℚ) (hist : List ℚ) (t : ℚ) : ℕ :=
  (hist.filter fun c => decide (t ≤ c) && decide (c < t + period)).length

/-! ### Lock/sleep event trace of `acquire` (for the lock-release question) -/

/-- Events emitted by one `acquire` call, in program order. -/
inductive RLEvent where
  | lockAcquire : RLEvent
  | lockRelease : RLEvent
  | sleepEv (d : ℚ) : RLEvent
  | record (t : ℚ) : RLEvent
deriving DecidableEq, Repr

/-- Event trace of `RateLimiter.acquire` (and `acquire_async`): the whole
body, including the sleep, runs inside `with self._lock:`
(resp. `async with self._async_lock:`). -/
def acquireEvents (maxCalls : ℕ) (period : ℚ) (calls : List ℚ) (inp : AcqInput) :
    List RLEvent :=
  let s1 := trimCalls period inp.now calls
  if maxCalls ≤ s1.length then
    match s1 with
    | [] => [.lockAcquire, .record inp.now, .lockRelease]
    | c0 :: _ =>
      let sleepFor := period - (inp.now - c0)
      let now2 := inp.now + sleepFor + inp.slack
      [.lockAcquire, .sleepEv sleepFor, .record now2, .lockRelease]
  else [.lockAcquire, .record inp.now, .lockRelease]

/-- Whether some sleep event of the trace happens while the mutex is held. -/
def sleepsWithLockHeld : Bool → List RLEvent → Bool
  | _, [] => false
  | held, e :: rest =>
    match e with
    | .lockAcquire => sleepsWithLockHeld true rest
    | .lockRelease => sleepsWithLockHeld false rest
    | .sleepEv _ => held || sleepsWithLockHeld held rest
    | .record _ => sleepsWithLockHeld held rest

/-! ## HTTP responses as seen by the services -/

/-- A response delivered to a service: whether `raise_for_status()` raises,
and the decoded JSON body (`none` models `.json()` raising `ValueError`). -/
structure HttpResponse where
  statusError : Bool
  body : Option JVal

/-! ## `AuthService` login (`pyskoob/auth.py`) -/

/-- Outcome of `_AuthServiceMixin._login`. -/
inductive LoginOutcome where
  | ok : LoginOutcome
  | httpStatusError : LoginOutcome
  | connectionError : LoginOutcome
  | uncaughtError : LoginOutcome
deriving DecidableEq, Repr

/-- `_AuthServiceMixin._login`: POST the credentials, `raise_for_status`,
decode JSON (`ValueError` becomes `ConnectionError`), raise
`ConnectionError` unless `json_data.get("success", False)` is truthy; only
then set `_is_logged_in = True` and call `_get_my_info` (whose failure,
`myInfoOk = false`, raises `ConnectionError` with the flag already set).
Returns the new `_is_logged_in` state and the outcome.  A non-object JSON
body would make `.get` raise `AttributeError`, which no handler catches. -/
def login_step (isLoggedIn : Bool) (resp : HttpResponse) (myInfoOk : Bool) :
    Bool × LoginOutcome :=
  if resp.statusError then (isLoggedIn, .httpStatusError)
  else
    match resp.body with
    | none => (isLoggedIn, .connectionError)
    | some (.jobj fs) =>
      if ((lookupField fs "success").getD (.jbool false)).truthy then
        (true, if myInfoOk then .ok else .connectionError)
      else (isLoggedIn, .connectionError)
    | some _ => (isLoggedIn, .uncaughtError)

/-! ## `SkoobProfileService.rate_book` (`pyskoob/profile.py`) -/

/-- Outcome of `_ProfileServiceMixin._rate_book`. -/
inductive RateOutcome where
  | permissionError : RateOutcome
  | valueError : RateOutcome
  | httpStatusError : RateOutcome
  | runtimeError : RateOutcome
  | uncaughtError : RateOutcome
  | okTrue : RateOutcome
deriving DecidableEq, Repr

/-- `_ProfileServiceMixin._rate_book`: validate login, then reject a
ranking outside `[0, 5]` with `ValueError` before any request; otherwise
issue the GET, `raise_for_status`, and return `True` when
`response.json().get("success")` is truthy, raising `RuntimeError`
otherwise.  The second component records whether the HTTP request was
issued. -/
def rate_book (loggedIn : Bool) (ranking : ℚ) (resp : HttpResponse) :
    RateOutcome × Bool :=
  if !loggedIn then (.permissionError, false)
  else if !(decide (0 ≤ ranking) && decide (ranking ≤ 5)) then (.valueError, false)
  else if resp.statusError then (.httpStatusError, true)
  else
    match resp.body with
    | none => (.uncaughtError, true)
    | some (.jobj fs) =>
      if ((lookupField fs "success").getD .jnull).truthy then (.okTrue, true)
      else (.runtimeError, true)
    | some _ => (.uncaughtError, true)

/-! ## `BookService._clean_book_json_data` (`pyskoob/books.py`) -/

/-- Python `str.lower()`; `Char.toLower` lowers ASCII letters only, which
agrees with CPython on the strings this is compared against (already
lower-case apart from ASCII letters). -/
def pyLower (s : String) : String := String.mk (s.toList.map Char.toLower)

/-- Python `s.split(pat)[-1]` for a non-empty `pat`: the piece after the
last occurrence of `pat` (the whole string when `pat` does not occur). -/
def splitLastPiece (s pat : String) : String := (pySplit s pat).getLastD s

/-- The `isbn` line: `None if str(json_data.get("isbn", "0")) == "0" else
json_data["isbn"]` (the dict-index branch is only reached with the key
present). -/
def cleanIsbn (fs : List (String × JVal)) : List (String × JVal) :=
  match lookupField fs "isbn" with
  | none => setField fs "isbn" .jnull
  | some v =>
    if pyStr v == "0" then setField fs "isbn" .jnull
    else setField fs "isbn" v

/-- The `autor` line: `None if json_data.get("autor", "").lower() == "não
especificado" else json_data["autor"]`.  `none` models the `KeyError` when
`autor` is absent and the default `""` misses the comparison, or the
`AttributeError` of `.lower()` on a non-string value. -/
def cleanAutor (fs : List (String × JVal)) : Option (List (String × JVal)) :=
  let autorStr? : Option String :=
    match lookupField fs "autor" with
    | none => some ""
    | some (.jstr s) => some s
    | some _ => none
  match autorStr? with
  | none => none
  | some autorTxt =>
    if pyLower autorTxt == "não especificado" then
      some (setField fs "autor" .jnull)
    else
      match lookupField fs "autor" with
      | none => none
      | some av => some (setField fs "autor" av)

/-- The `serie` line: `json_data.get("serie") or None`. -/
def cleanSerie (fs : List (String × JVal)) : List (String × JVal) :=
  match lookupField fs "serie" with
  | some v => if v.truthy then setField fs "serie" v else setField fs "serie" .jnull
  | none => setField fs "serie" .jnull

/-- The `volume` line: `None` when the value is falsy or stringifies to
`"0"`, else the stringified value. -/
def cleanVolume (fs : List (String × JVal)) : List (String × JVal) :=
  match lookupField fs "volume" with
  | none => setField fs "volume" .jnull
  | some v =>
    if !v.truthy || pyStr v == "0" then setField fs "volume" .jnull
    else setField fs "volume" (.jstr (pyStr v))

/-- The `mes` line: `None` when the value is falsy or stringifies to
whitespace, else the value unchanged. -/
def cleanMes (fs : List (String × JVal)) : List (String × JVal) :=
  match lookupField fs "mes" with
  | none => setField fs "mes" .jnull
  | some v =>
    if !v.truthy || pyStrip (pyStr v) == "" then setField fs "mes" .jnull
    else setField fs "mes" v

/-- The `cover_url` value: the part of `img_url` from the last `https` on,
or `""`.  `none` models the `TypeError` of `"https" in img_url` on a
truthy non-string value (a truthy container is folded into this case as
well: the scraped `img_url` field is a URL string). -/
def cleanCover (fs : List (String × JVal)) : Option String :=
  match lookupField fs "img_url" with
  | none => some ""
  | some (.jstr s) =>
    if !s.isEmpty && strContains s "https" then
      some ("https" ++ pyStrip (splitLastPiece s "https"))
    else some ""
  | some v => if v.truthy then none else some ""

/-- The `generos` line: `generos if generos else None`. -/
def cleanGeneros (fs : List (String × JVal)) : List (String × JVal) :=
  match lookupField fs "generos" with
  | some v => if v.truthy then setField fs "generos" v else setField fs "generos" .jnull
  | none => setField fs "generos" .jnull

/-- `BookService._clean_book_json_data`: normalize the raw book record in
place before model validation, field by field in source order.  `none`
models an exception escaping the function (`KeyError` on a missing
`url`/`autor`, or an `AttributeError`/`TypeError` from a field of an
unexpected type, including indexing a non-dict record). -/
def clean_book_json_data (baseUrl : String) (j : JVal) : Option JVal :=
  match j with
  | .jobj fs0 =>
    match lookupField fs0 "url" with
    | none => none
    | some urlv =>
      let fs2 := cleanIsbn (setField fs0 "url" (.jstr (baseUrl ++ pyStr urlv)))
      match cleanAutor fs2 with
      | none => none
      | some fs3 =>
        let fs6 := cleanMes (cleanVolume (cleanSerie fs3))
        match cleanCover fs6 with
        | none => none
        | some cover =>
          some (.jobj (cleanGeneros (setField fs6 "cover_url" (.jstr cover))))
  | _ => none

/-! ## `get_by_id` error paths (`pyskoob/books.py`, `pyskoob/users.py`) -/

/-- Result of `BookService.get_by_id`. -/
inductive BookGetById where
  | notFound (description : String) : BookGetById
  | parsingError : BookGetById
  | uncaughtError : BookGetById
  | okData (cleaned : JVal) : BookGetById

/-- `BookService.get_by_id`: read `response.json().get("response")`; when
that is missing or falsy, raise `FileNotFoundError` with the
`cod_description`; otherwise clean the record and hand it to
`Book.model_validate` (the pydantic validation is an external boundary;
its input, the cleaned record, is the payload here).  A cleaning exception
of kind `KeyError`/`ValueError`/`TypeError` becomes `ParsingError`.  A
non-object body would make `.get` raise `AttributeError`, uncaught. -/
def book_get_by_id (baseUrl : String) (body : JVal) : BookGetById :=
  match body with
  | .jobj fs =>
    let jd := lookupField fs "response"
    if !((jd.getD .jnull).truthy) then
      let desc := (lookupField fs "cod_description").getD (.jstr "No description provided.")
      .notFound (pyStr desc)
    else
      match jd with
      | some d =>
        match clean_book_json_data baseUrl d with
        | none => .parsingError
        | some cleaned => .okData cleaned
      | none => .parsingError
  | _ => .uncaughtError

/-- Result of `UserService.get_by_id`. -/
inductive UserGetById where
  | permissionError : UserGetById
  | httpStatusError : UserGetById
  | notFound : UserGetById
  | uncaughtError : UserGetById
  | okData (profile : JVal) : UserGetById

/-- `UserService.get_by_id`: validate login, `raise_for_status`, raise
`FileNotFoundError` unless `json_data.get("success")` is truthy; then
`json_data["response"]` (a `KeyError` escapes when the key is absent),
patch `profile_url = base_url + user_data["url"]` (`KeyError`/`TypeError`
escape on a missing or non-string `url`) and validate. -/
def user_get_by_id (baseUrl : String) (loggedIn : Bool) (statusError : Bool)
    (body : JVal) : UserGetById :=
  if !loggedIn then .permissionError
  else if statusError then .httpStatusError
  else
    match body with
    | .jobj fs =>
      if !(((lookupField fs "success").getD .jnull).truthy) then .notFound
      else
        match lookupField fs "response" with
        | none => .uncaughtError
        | some d =>
          match d with
          | .jobj dfs =>
            match lookupField dfs "url" with
            | some (.jstr u) =>
              .okData (.jobj (setField dfs "profile_url" (.jstr (baseUrl ++ u))))
            | some _ => .uncaughtError
            | none => .uncaughtError
          | _ => .uncaughtError
    | _ => .uncaughtError

/-! ## HTML DOM model (BeautifulSoup boundary)

A page is a tree of elements with single-valued string attributes and text
nodes.  `find`/`find_all` search the descendants of a node in document
(pre-)order, as BeautifulSoup does; the attribute filters are exactly the
ones the services pass (`class` membership, exact values, and the literal
or anchored regexes from the source). -/

inductive HNode where
  | elem (tag : String) (attrs : List (String × String)) (children : List HNode) : HNode
  | text (s : String) : HNode

/-- Lookup in an attribute list (first match wins). -/
def assocStr : List (String × String) → String → Option String
  | [], _ => none
  | (k0, v0) :: rest, k => if k0 == k then some v0 else assocStr rest k

/-- Attribute of an element (`none` on text nodes and missing keys). -/
def nodeAttr (n : HNode) (k : String) : Option String :=
  match n with
  | .elem _ attrs _ => assocStr attrs k
  | .text _ => none

/-- The whitespace-separated class list of a node. -/
def classListOf (n : HNode) : List String :=
  match nodeAttr n "class" with
  | none => []
  | some v => wsTokens [] v.toList

/-- Positional matcher for a literal followed by at least one digit
(`re.search(r"lit\d+")`). -/
def matchLitThenDigitAt (lit : List Char) (cs : List Char) : Option Unit :=
  if listStartsWith lit cs then
    match cs.drop lit.length with
    | d :: _ => if d.isDigit then some () else none
    | [] => none
  else none

/-- `re.search(r"lit\d+", s)` for a literal `lit`. -/
def regexLitDigit (lit : String) (s : String) : Bool :=
  (searchPos (matchLitThenDigitAt lit.toList) s.toList).isSome

/-- `re.search(r"^/usuario/\d+-", s)`: anchored prefix match. -/
def userAnchorHref (s : String) : Bool :=
  let cs := s.toList
  if listStartsWith "/usuario/".toList cs then
    let rest := cs.drop 9
    let run := rest.takeWhile (·.isDigit)
    !run.isEmpty &&
      (match rest.drop run.length with
       | c :: _ => c == '-'
       | [] => false)
  else false

/-- The attribute filters used by the services. -/
inductive AttrSel where
  | exactAttr (k v : String) : AttrSel
  | classHas (c : String) : AttrSel
  | attrContains (k sub : String) : AttrSel
  | idResenhaNum : AttrSel
  | idResenhacNum : AttrSel
  | hrefUserAnchor : AttrSel

/-- Whether a node satisfies one attribute filter. -/
def selHolds (n : HNode) : AttrSel → Bool
  | .exactAttr k v => nodeAttr n k == some v
  | .classHas c => (classListOf n).contains c
  | .attrContains k sub =>
    match nodeAttr n k with
    | some v => strContains v sub
    | none => false
  | .idResenhaNum =>
    match nodeAttr n "id" with
    | some v => regexLitDigit "resenha" v
    | none => false
  | .idResenhacNum =>
    match nodeAttr n "id" with
    | some v => regexLitDigit "resenhac" v
    | none => false
  | .hrefUserAnchor =>
    match nodeAttr n "href" with
    | some v => userAnchorHref v
    | none => false

/-- The tag-name plus attribute-filters match of `find`/`find_all`. -/
def matchTag (nameTag : String) (sels : List AttrSel) (n : HNode) : Bool :=
  (match n with
   | .elem t _ _ => t == nameTag
   | .text _ => false) &&
  sels.all (selHolds n)

mutual

/-- All descendants of a node satisfying `p`, in document (pre-)order;
the node itself is not a candidate, as in `Tag.find_all`. -/
def findAllIn (p : HNode → Bool) : HNode → List HNode
  | .text _ => []
  | .elem _ _ cs => findAllInList p cs

/-- Pre-order traversal of a forest: each root (if matching) before its
descendants, then the rest. -/
def findAllInList (p : HNode → Bool) : List HNode → List HNode
  | [] => []
  | c :: rest => (if p c then [c] else []) ++ findAllIn p c ++ findAllInList p rest

end

/-- `safe_find_all`: empty on a `None` soup. -/
def safe_find_all (soup : Option HNode) (nameTag : String) (sels : List AttrSel) :
    List HNode :=
  match soup with
  | none => []
  | some n => findAllIn (matchTag nameTag sels) n

/-- `safe_find`: first match in document order, `none` otherwise. -/
def safe_find (soup : Option HNode) (nameTag : String) (sels : List AttrSel) :
    Option HNode :=
  (safe_find_all soup nameTag sels).head?

mutual

/-- The text-node strings below a node, in document order. -/
def textPieces : HNode → List String
  | .text s => [s]
  | .elem _ _ cs => textPiecesList cs

/-- Text-node strings of a forest. -/
def textPiecesList : List HNode → List String
  | [] => []
  | c :: rest => textPieces c ++ textPiecesList rest

end

/-- bs4 `get_text(separator, strip)`: with `strip` each string is trimmed
and empty pieces are skipped before joining. -/
def getTextSep (sep : String) (strip : Bool) (n : HNode) : String :=
  if strip then
    String.intercalate sep (((textPieces n).map pyStrip).filter (fun s => !s.isEmpty))
  else String.intercalate sep (textPieces n)

/-- `get_tag_text` (with its default `strip=True` made explicit). -/
def get_tag_text (t : Option HNode) (strip : Bool) : String :=
  match t with
  | some n => getTextSep "" strip n
  | none => ""

/-- `get_tag_attr` with default `None`. -/
def get_tag_attr (t : Option HNode) (k : String) : Option String :=
  match t with
  | some n => nodeAttr n k
  | none => none

/-! ## `Pagination` and the scraped record types (`pyskoob/models`) -/

/-- The `Pagination` wrapper returned by the list endpoints. -/
structure Pagination (α : Type) where
  results : List α
  total : Option ℤ
  page : ℤ
  limit : ℤ
  has_next_page : Bool

/-- `BookSearchResult` as populated by `_parse_search_result`. -/
structure BookSearchResult where
  edition_id : ℤ
  book_id : ℤ
  title : Option String
  publisher : Option String
  isbn : Option String
  url : String
  cover_url : String
  rating : Option ℚ

/-- A calendar date, the result of `datetime.strptime(s, "%d/%m/%Y")`. -/
structure DateBR where
  day : ℕ
  month : ℕ
  year : ℕ

/-- `BookReview` as populated by `_parse_review`. -/
structure BookReview where
  review_id : ℤ
  book_id : ℤ
  edition_id : Option ℤ
  user_id : ℤ
  rating : ℚ
  review_text : String
  reviewed_at : Option DateBR

/-- `UserSearch` as populated by `UserService.search`. -/
structure UserSearch where
  id : ℤ
  username : String
  name : String
  url : String

/-! ## `BookService.search` helpers -/

/-- `BookService._extract_img_url`: first descendant `img` of the cover
container; keep the part of `src` from the last `https` on, stripped. -/
def extract_img_url (container : HNode) : String :=
  match (findAllIn (matchTag "img" []) container).head? with
  | some img =>
    match nodeAttr img "src" with
    | some src =>
      if !src.isEmpty && strContains src "https" then
        "https" ++ pyStrip (splitLastPiece src "https")
      else ""
    | none => ""
  | none => ""

/-- `re.match(r"^\d{9,13}$|^B0[A-Z0-9]{8,}$", s)` (full-width thanks to
the anchors). -/
def isbnPatternMatch (s : String) : Bool :=
  let cs := s.toList
  (cs.all (·.isDigit) && 9 ≤ cs.length && cs.length ≤ 13) ||
    (match cs with
     | b :: z :: rest =>
       b == 'B' && z == '0' && 8 ≤ rest.length &&
         rest.all (fun c => c.isDigit || (65 ≤ c.toNat && c.toNat ≤ 90))
     | _ => false)

/-- `BookService._extract_publisher_and_isbn`: spans of the first inner
`div` of `detalhes-2-sub`, stripped, dropping empties and `"|"`; the first
one is the ISBN when it matches the pattern, the second the publisher. -/
def extract_publisher_and_isbn (bookDiv : HNode) : Option String × Option String :=
  let detalhes := safe_find (some bookDiv) "div" [.classHas "detalhes-2-sub"]
  let innerDiv : Option HNode :=
    match detalhes with
    | some d => (findAllIn (matchTag "div" []) d).head?
    | none => none
  let spans :=
    match innerDiv with
    | some d => safe_find_all (some d) "span" []
    | none => []
  let cleaned :=
    (spans.map (fun sp => getTextSep "" true sp)).filter
      (fun t => !t.isEmpty && t != "|")
  match cleaned with
  | [] => (none, none)
  | t0 :: rest =>
    let isbn := if isbnPatternMatch t0 then some t0 else none
    let publisher :=
      match rest with
      | t1 :: _ => some t1
      | [] => none
    (publisher, isbn)

/-- `BookService._extract_rating`: text of the `strong` inside
`star-mini`, comma turned into a dot, parsed as a float; `None` when
absent or unparseable. -/
def extract_rating (bookDiv : HNode) : Option ℚ :=
  match safe_find (some bookDiv) "div" [.classHas "star-mini"] with
  | some sm =>
    let ratingText := get_tag_text (safe_find (some sm) "strong" []) true
    if !ratingText.isEmpty then pyFloatOpt (pyReplace ratingText "," ".") else none
  | none => none

/-- Positional matcher for `(\d+)\s+encontrados`. -/
def matchCountAt (cs : List Char) : Option (List Char) :=
  let run := cs.takeWhile (·.isDigit)
  if run.isEmpty then none
  else
    let rest := cs.drop run.length
    let ws := rest.takeWhile (·.isWhitespace)
    if ws.isEmpty then none
    else if listStartsWith "encontrados".toList (rest.drop ws.length) then some run
    else none

/-- `BookService._extract_total_results`: number before `encontrados` in
the `contador` div, `0` when absent. -/
def extract_total_results (soup : HNode) : ℕ :=
  match safe_find (some soup) "div" [.classHas "contador"] with
  | some tag =>
    match searchPos matchCountAt (getTextSep "" true tag).toList with
    | some run => digitsToNat run
    | none => 0
  | none => 0

/-- `BookService._parse_search_result`: `None` (a skipped item) when the
`capa-link-item` container is missing or the book/edition id cannot be
parsed out of the URL; otherwise the populated record. -/
def parse_search_result (baseUrl : String) (bookDiv : HNode) : Option BookSearchResult :=
  match safe_find (some bookDiv) "a" [.classHas "capa-link-item"] with
  | none => none
  | some container =>
    let title := nodeAttr container "title"
    let bookUrl := baseUrl ++ pyStrOptStr (nodeAttr container "href")
    let imgUrl := extract_img_url container
    match get_book_id_from_url bookUrl, get_book_edition_id_from_url bookUrl with
    | some bid, some eid =>
      let pi := extract_publisher_and_isbn bookDiv
      some
        { edition_id := (digitsToNat eid.toList : ℤ)
          book_id := (digitsToNat bid.toList : ℤ)
          title := title
          publisher := pi.1
          isbn := pi.2
          url := bookUrl
          cover_url := imgUrl
          rating := extract_rating bookDiv }
    | _, _ => none

/-- The two list steps of `BookService.search`: map the item parser over
the result divs, then keep the truthy entries. -/
def searchCleanedResults (baseUrl : String) (divs : List HNode) : List BookSearchResult :=
  ((divs.map (parse_search_result baseUrl)).filter (fun o => o.isSome)).reduceOption

/-- `BookService.search` on a fetched page: parse the result divs, extract
the total, and set `has_next_page = (page * 30 < total)` — the page-size
constant `limit = 30`. -/
def book_search (baseUrl : String) (soup : HNode) (page : ℤ) :
    Pagination BookSearchResult :=
  let divs := safe_find_all (some soup) "div" [.classHas "box_lista_busca_vertical"]
  let cleaned := searchCleanedResults baseUrl divs
  let total := extract_total_results soup
  { results := cleaned
    limit := 30
    page := page
    total := some (total : ℤ)
    has_next_page := decide (page * 30 < (total : ℤ)) }

/-! ## `BookService.get_reviews` -/

/-- A Gregorian leap year. -/
def leapYear (y : ℕ) : Bool := (y % 4 == 0 && y % 100 != 0) || y % 400 == 0

/-- Days in a month. -/
def daysInMonth (m y : ℕ) : ℕ :=
  if m == 2 then (if leapYear y then 29 else 28)
  else if m == 4 || m == 6 || m == 9 || m == 11 then 30
  else 31

/-- `datetime.strptime(s, "%d/%m/%Y")`: one-or-two-digit day and month,
up-to-four-digit year, full-string match, calendar-validated.  `none`
models `ValueError`. -/
def strptimeDMY (s : String) : Option DateBR :=
  match pySplit s "/" with
  | [ds, ms, ys] =>
    let dcs := ds.toList
    let mcs := ms.toList
    let ycs := ys.toList
    if allDigits1 dcs && dcs.length ≤ 2 && allDigits1 mcs && mcs.length ≤ 2 &&
        allDigits1 ycs && ycs.length ≤ 4 then
      let d := digitsToNat dcs
      let m := digitsToNat mcs
      let y := digitsToNat ycs
      if 1 ≤ m && m ≤ 12 && 1 ≤ d && d ≤ daysInMonth m y && 1 ≤ y then
        some ⟨d, m, y⟩
      else none
    else none
  | _ => none

mutual

/-- First `span` descendant in document order together with its following
siblings (`date_span.next_siblings`). -/
def firstSpanSibs : HNode → Option (HNode × List HNode)
  | .text _ => none
  | .elem _ _ cs => firstSpanSibsList cs

/-- Forest version of `firstSpanSibs`. -/
def firstSpanSibsList : List HNode → Option (HNode × List HNode)
  | [] => none
  | c :: rest =>
    if matchTag "span" [] c then some (c, rest)
    else
      match firstSpanSibs c with
      | some r => some r
      | none => firstSpanSibsList rest

end

/-- One sibling of the date span as a content part: a tag contributes its
newline-joined stripped text (possibly empty), a string contributes its
stripped value only when non-empty. -/
def sibPart : HNode → Option String
  | .elem t a c => some (getTextSep "\n" true (.elem t a c))
  | .text s =>
    let st := pyStrip s
    if st.isEmpty then none else some st

/-- `BookService._extract_review_date_and_text`. -/
def extract_review_date_and_text (commentDiv : Option HNode) : Option DateBR × String :=
  match commentDiv with
  | none => (none, "")
  | some cd =>
    match firstSpanSibs cd with
    | some (span, sibs) =>
      let dateText := getTextSep "" true span
      let date := if !dateText.isEmpty then strptimeDMY dateText else none
      let parts := sibs.filterMap sibPart
      (date, pyStrip (String.intercalate "\n" (parts.filter (fun p => !p.isEmpty))))
    | none =>
      let parts := [getTextSep "\n" true cd]
      (none, pyStrip (String.intercalate "\n" (parts.filter (fun p => !p.isEmpty))))

/-- `BookService._parse_review`: `ok none` models the skip-and-continue
cases (missing id attribute, missing user link); `error` models a
`ValueError` escaping to `get_reviews` (unparseable id digits, an
`/usuario/` link without a user id, an unparseable rating), which turns
the whole page into a `ParsingError`. -/
def parse_review (r : HNode) (bookId : ℤ) (editionId : Option ℤ) :
    Except Unit (Option BookReview) :=
  match nodeAttr r "id" with
  | none => .ok none
  | some ids =>
    match pyIntOpt (pyReplace ids "resenha" "") with
    | none => .error ()
    | some rid =>
      let user_url := get_tag_attr (safe_find (some r) "a" [.attrContains "href" "/usuario/"]) "href"
      match user_url with
      | none => .ok none
      | some uurl =>
        if uurl.isEmpty then .ok none
        else
          match get_user_id_from_url uurl with
          | none => .error ()
          | some uid =>
            let star := safe_find (some r) "star-rating" []
            let rate := get_tag_attr star "rate"
            let ratingE : Except Unit ℚ :=
              match star, rate with
              | some _, some rs =>
                if rs.isEmpty then .ok 0
                else
                  match pyFloatOpt rs with
                  | some q => .ok q
                  | none => .error ()
              | _, _ => .ok 0
            match ratingE with
            | .error e => .error e
            | .ok rating =>
              let comment := safe_find (some r) "div" [.idResenhacNum]
              let dt := extract_review_date_and_text comment
              .ok (some
                { review_id := rid
                  book_id := bookId
                  edition_id := editionId
                  user_id := (digitsToNat uid.toList : ℤ)
                  rating := rating
                  review_text := dt.2
                  reviewed_at := dt.1 })

/-- `BookService._extract_edition_id_from_reviews_page`: `error` models
the `ValueError` from `get_book_edition_id_from_url` reaching
`get_reviews`. -/
def extract_edition_id_from_reviews_page (soup : HNode) : Except Unit (Option ℤ) :=
  let menu := safe_find (some soup) "div" [.exactAttr "id" "pg-livro-menu-principal-container"]
  let menuA :=
    match menu with
    | some m => safe_find (some m) "a" []
    | none => none
  match get_tag_attr menuA "href" with
  | none => .ok none
  | some href =>
    if href.isEmpty then .ok none
    else
      match get_book_edition_id_from_url href with
      | some eid => .ok (some (digitsToNat eid.toList : ℤ))
      | none => .error ()

/-- Parse the review divs one by one, propagating the first error. -/
def traverseReviews (bookId : ℤ) (editionId : Option ℤ) :
    List HNode → Except Unit (List (Option BookReview))
  | [] => .ok []
  | r :: rest =>
    match parse_review r bookId editionId with
    | .error u => .error u
    | .ok o =>
      match traverseReviews bookId editionId rest with
      | .error u => .error u
      | .ok os => .ok (o :: os)

/-- `BookService.get_reviews` on a fetched page: resolve the edition id,
parse the `resenha\d+` divs dropping the `None`s, and set
`has_next_page` from the presence of an `a.proximo` element;
`limit = 50`, `total = len(results)`. -/
def get_reviews (soup : HNode) (bookId : ℤ) (editionIdArg : Option ℤ) (page : ℤ) :
    Except Unit (Pagination BookReview) :=
  let edE :=
    match editionIdArg with
    | none => extract_edition_id_from_reviews_page soup
    | some e => .ok (some e)
  match edE with
  | .error e => .error e
  | .ok editionId =>
    match traverseReviews bookId editionId (safe_find_all (some soup) "div" [.idResenhaNum]) with
    | .error e => .error e
    | .ok opts =>
      let reviews := opts.reduceOption
      .ok
        { results := reviews
          limit := 50
          page := page
          total := some (reviews.length : ℤ)
          has_next_page := (safe_find (some soup) "a" [.classHas "proximo"]).isSome }

/-! ## `BookService.get_users_by_status` -/

/-- Body of `_extract_user_ids_from_html`: one user id per
`livro-leitor-container` div with a linked user URL; a missing link or
href is skipped, an `/usuario/`-less href raises `ValueError` (`error`),
which `get_users_by_status` turns into a `ParsingError`. -/
def userIdsFromDivs : List HNode → Except Unit (List ℤ)
  | [] => .ok []
  | d :: rest =>
    match get_tag_attr (safe_find (some d) "a" []) "href" with
    | none => userIdsFromDivs rest
    | some href =>
      if href.isEmpty then userIdsFromDivs rest
      else
        match get_user_id_from_url href with
        | none => .error ()
        | some uid =>
          match userIdsFromDivs rest with
          | .error u => .error u
          | .ok xs => .ok ((digitsToNat uid.toList : ℤ) :: xs)

/-- `BookService.get_users_by_status` on a fetched page: the extracted
user ids with the caller-supplied `limit`, `total = len(results)`, and
`has_next_page` from the `a.proximo` marker. -/
def get_users_by_status (soup : HNode) (limit page : ℤ) : Except Unit (Pagination ℤ) :=
  match userIdsFromDivs (safe_find_all (some soup) "div" [.classHas "livro-leitor-container"]) with
  | .error e => .error e
  | .ok ids =>
    .ok
      { results := ids
        limit := limit
        page := page
        total := some (ids.length : ℤ)
        has_next_page := (safe_find (some soup) "a" [.classHas "proximo"]).isSome }

/-! ## `UserService.search` -/

/-- ASCII approximation of the `[\w.\-]` character class. -/
def isUserWordChar (c : Char) : Bool := c.isAlphanum || c == '_' || c == '.' || c == '-'

/-- Positional matcher for `/usuario/(\d+)-([\w\.\-]+)`: the id digits and
the username. -/
def matchUserFullAt (cs : List Char) : Option (List Char × List Char) :=
  if listStartsWith "/usuario/".toList cs then
    let rest := cs.drop 9
    let digits := rest.takeWhile (·.isDigit)
    if digits.isEmpty then none
    else
      match rest.drop digits.length with
      | c :: rest2 =>
        if c == '-' then
          let uname := rest2.takeWhile isUserWordChar
          if uname.isEmpty then none else some (digits, uname)
        else none
      | [] => none
  else none

/-- One search-result div of `UserService.search`: skipped (`none`)
without an anchor matching `^/usuario/\d+-` or when the id/username regex
fails; otherwise the populated record. -/
def parse_user_search_div (baseUrl : String) (div : HNode) : Option UserSearch :=
  match safe_find (some div) "a" [.hrefUserAnchor] with
  | none => none
  | some anchor =>
    match nodeAttr anchor "href" with
    | none => none
    | some href =>
      match searchPos matchUserFullAt href.toList with
      | none => none
      | some (digits, uname) =>
        some
          { id := (digitsToNat digits : ℤ)
            username := String.mk uname
            name := getTextSep "" true anchor
            url := baseUrl ++ href }

/-- `UserService.search` on a fetched page: parse the bordered user divs,
take the total from the text before `encontrados` in the `contador` div
(`0` when the word is absent; an unparseable number is a `ParsingError`),
and set `has_next_page` from the `a.proximo` marker. -/
def user_search_page (baseUrl : String) (soup : HNode) (page limit : ℤ) :
    Except Unit (Pagination UserSearch) :=
  let userDivs := safe_find_all (some soup) "div"
    [.attrContains "style" "border: 1px solid #e4e4e4"]
  let results := userDivs.filterMap (parse_user_search_div baseUrl)
  let totalText := get_tag_text (safe_find (some soup) "div" [.classHas "contador"]) true
  let totalE : Except Unit ℤ :=
    if strContains totalText "encontrados" then
      match pyIntOpt (pyStrip ((pySplit totalText "encontrados").headD totalText)) with
      | some n => .ok n
      | none => .error ()
    else .ok 0
  match totalE with
  | .error e => .error e
  | .ok total =>
    .ok
      { results := results
        page := page
        total := some total
        limit := limit
        has_next_page := (safe_find (some soup) "a" [.classHas "proximo"]).isSome }

/-! ## Verification infrastructure: invariants and concrete fixtures -/

/-- A response reporting success in the sense of `_rate_book`:
status OK and a JSON object body whose `success` value is truthy. -/
def reportsSuccess (resp : HttpResponse) : Bool :=
  resp.statusError == false &&
    (match resp.body with
     | some (.jobj fs) => ((lookupField fs "success").getD .jnull).truthy
     | _ => false)

/-- A response reporting success in the sense of `_login`
(default `False` instead of `None` for a missing key). -/
def loginReportsSuccess (resp : HttpResponse) : Bool :=
  resp.statusError == false &&
    (match resp.body with
     | some (.jobj fs) => ((lookupField fs "success").getD (.jbool false)).truthy
     | _ => false)

/-- Invariant of the rate-limiter state after a run with recorded history
`hist`, last recorded time `tprev` and current queue `calls`. -/
def RLInv (maxCalls : ℕ) (period : ℚ) (calls hist : List ℚ) (tprev : ℚ) : Prop :=
  hist.Sorted (· ≤ ·) ∧
  (∀ c ∈ hist, c ≤ tprev) ∧
  calls = hist.filter (fun c => decide (tprev - c < period)) ∧
  calls.length ≤ maxCalls ∧
  ∀ t, windowCount period hist t ≤ maxCalls

/-- An empty fetched page. -/
def fixtureEmptyPage : HNode := .elem "body" [] []

/-- A well-formed search result item. -/
def searchItemDiv : HNode :=
  .elem "div" [("class", "box_lista_busca_vertical")]
    [.elem "a" [("class", "capa-link-item"), ("title", "Duna"), ("href", "/livro/1-ed2.html")] []]

/-- A search page carrying 31 well-formed result items, a total counter of
1000, and no `a.proximo` marker. -/
def searchFixture31 : HNode :=
  .elem "body" []
    (List.replicate 31 searchItemDiv ++
      [.elem "div" [("class", "contador")] [.text "1000 encontrados"]])

/-- The pagination value `get_reviews` produces on the empty page. -/
def reviewsFixturePage : Pagination BookReview :=
  { results := [], limit := 50, page := 1, total := some 0, has_next_page := false }

/-- The pagination value `get_users_by_status` produces on the empty page. -/
def usersFixturePage : Pagination ℤ :=
  { results := [], limit := 500, page := 1, total := some 0, has_next_page := false }

/-- The pagination value `UserService.search` produces on the empty page. -/
def userSearchFixturePage : Pagination UserSearch :=
  { results := [], page := 1, total := some 0, limit := 100, has_next_page := false }

/-- A raw book record with `isbn: "0"`. -/
def bookJsonFixtureZero : JVal :=
  .jobj [("url", .jstr "/livro/1"), ("isbn", .jstr "0"), ("autor", .jstr "Frank Herbert")]

/-- A raw book record with a numeric-string ISBN. -/
def bookJsonFixtureIsbn : JVal :=
  .jobj [("url", .jstr "/livro/1"), ("isbn", .jstr "9788533613379"), ("autor", .jstr "Frank Herbert")]

/-- Cleaned form of `bookJsonFixtureZero`. -/
def cleanFixZero : JVal :=
  (clean_book_json_data "https://www.skoob.com.br" bookJsonFixtureZero).getD .jnull

/-- Cleaned form of `bookJsonFixtureIsbn`. -/
def cleanFixIsbn : JVal :=
  (clean_book_json_data "https://www.skoob.com.br" bookJsonFixtureIsbn).getD .jnull

/-! # Theorems -/

/-- C5: for every non-negative attempt index `i`,
`ExponentialBackoff._compute_delay(i)` — the delay slept before retry `i`
— equals `min(base_delay * factor^i, max_delay)` over exact rational
arithmetic. -/
theorem compute_delay_eq_min_cap (b : ExponentialBackoff) (i : ℕ) :
    b.compute_delay i = min (b.base_delay * b.factor ^ i) b.max_delay := rfl

/-- C3 (code bug): in `RateLimiter.acquire` (and identically
`acquire_async`) the sleep that waits for the oldest timestamp to exit the
window happens inside the `with self._lock:` block, so the mutex is held
for the whole sleep — contradicting the repository's own tests
`test_rate_limiter_releases_lock_during_sleep` and
`test_rate_limiter_releases_async_lock_during_sleep`.  Concretely, with
`max_calls = 1`, `period = 0.05`, one recorded call at time `0` and a
second `acquire` entering at time `0.001`, the event trace sleeps while
holding the lock. -/
theorem acquire_sleeps_holding_lock :
    sleepsWithLockHeld false
      (acquireEvents 1 (1/20 : ℚ) [(0 : ℚ)] { now := 1/1000, slack := 0 }) = true := by
  simp only [acquireEvents]
  norm_num [trimCalls, sleepsWithLockHeld]

/-- Invariant of the httpx retry loop, by induction on the remaining fuel:
starting at `attempt ≤ maxRetries` with `attempt + fuel = maxRetries + 1`,
the loop makes between `attempt + 1` and `maxRetries + 1` total attempts,
every attempt that was followed by another one raised `httpx.HTTPError`,
an all-transport-error oracle ends in a re-raise after `maxRetries + 1`
attempts, and a first non-transport error at index `i` propagates at once
after `i + 1` attempts. -/
theorem httpxLoop_spec (oracle : ℕ → AttemptOutcome) (maxRetries : ℕ)
    (fuel attempt : ℕ) (hsum : attempt + fuel = maxRetries + 1)
    (hatt : attempt ≤ maxRetries) :
    attempt < (httpxLoop oracle maxRetries attempt fuel).2 ∧
    (httpxLoop oracle maxRetries attempt fuel).2 ≤ maxRetries + 1 ∧
    (∀ i, attempt ≤ i → i + 1 < (httpxLoop oracle maxRetries attempt fuel).2 →
      oracle i = .httpError) ∧
    ((∀ i, attempt ≤ i → i ≤ maxRetries → oracle i = .httpError) →
      httpxLoop oracle maxRetries attempt fuel = (.transportRaised, maxRetries + 1)) ∧
    (∀ i, attempt ≤ i → i ≤ maxRetries → oracle i = .otherError →
      (∀ j, attempt ≤ j → j < i → oracle j = .httpError) →
      httpxLoop oracle maxRetries attempt fuel = (.otherRaised, i + 1)) := by
  induction fuel generalizing attempt with
  | zero => omega
  | succ n ih =>
    cases horacle : oracle attempt with
    | success s =>
      simp only [httpxLoop, horacle]
      refine ⟨by omega, by omega, ?_, ?_, ?_⟩
      · intro i hi hlt
        omega
      · intro hall
        have := hall attempt le_rfl hatt
        rw [horacle] at this
        exact AttemptOutcome.noConfusion this
      · intro i hi hile hio hprev
        rcases Nat.eq_or_lt_of_le hi with heq | hlt
        · rw [← heq, horacle] at hio
          exact AttemptOutcome.noConfusion hio
        · have := hprev attempt le_rfl hlt
          rw [horacle] at this
          exact AttemptOutcome.noConfusion this
    | otherError =>
      simp only [httpxLoop, horacle]
      refine ⟨by omega, by omega, ?_, ?_, ?_⟩
      · intro i hi hlt
        omega
      · intro hall
        have := hall attempt le_rfl hatt
        rw [horacle] at this
        exact AttemptOutcome.noConfusion this
      · intro i hi hile hio hprev
        rcases Nat.eq_or_lt_of_le hi with heq | hlt
        · rw [← heq]
        · have := hprev attempt le_rfl hlt
          rw [horacle] at this
          exact AttemptOutcome.noConfusion this
    | httpError =>
      by_cases hmax : maxRetries ≤ attempt
      · have heq : attempt = maxRetries := le_antisymm hatt hmax
        simp only [httpxLoop, horacle, if_pos hmax]
        refine ⟨by omega, by omega, ?_, ?_, ?_⟩
        · intro i hi hlt
          omega
        · intro _
          rw [heq]
        · intro i hi hile hio _
          have : i = attempt := by omega
          rw [this, horacle] at hio
          exact AttemptOutcome.noConfusion hio
      · have hrec := ih (attempt + 1) (by omega) (by omega)
        simp only [httpxLoop, horacle, if_neg hmax]
        refine ⟨by omega, hrec.2.1, ?_, ?_, ?_⟩
        · intro i hi hlt
          rcases Nat.eq_or_lt_of_le hi with heq | hlt2
          · rw [← heq, horacle]
          · exact hrec.2.2.1 i (by omega) hlt
        · intro hall
          exact hrec.2.2.2.1 (fun i hi hile => hall i (by omega) hile)
        · intro i hi hile hio hprev
          have hne : i ≠ attempt := by
            intro hh
            rw [hh, horacle] at hio
            exact AttemptOutcome.noConfusion hio
          exact hrec.2.2.2.2 i (by omega) hile hio (fun j hj hjlt => hprev j (by omega) hjlt)

/-- C4: every request through the httpx client wrappers attempts the
underlying call at most `1 + max_retries` times; an attempt that was
retried had raised a transport-level `httpx.HTTPError`; if every attempt
raises a transport error the error is re-raised after the final attempt;
and a non-transport exception propagates immediately without a retry. -/
theorem httpx_request_retry_policy (maxRetries : ℕ) (oracle : ℕ → AttemptOutcome) :
    (httpxRequest maxRetries oracle).2 ≤ maxRetries + 1 ∧
    (∀ i, i + 1 < (httpxRequest maxRetries oracle).2 → oracle i = .httpError) ∧
    ((∀ i, i ≤ maxRetries → oracle i = .httpError) →
      httpxRequest maxRetries oracle = (.transportRaised, maxRetries + 1)) ∧
    (∀ i, i ≤ maxRetries → oracle i = .otherError →
      (∀ j, j < i → oracle j = .httpError) →
      httpxRequest maxRetries oracle = (.otherRaised, i + 1)) := by
  have h := httpxLoop_spec oracle maxRetries (maxRetries + 1) 0 (by omega) (by omega)
  exact ⟨h.2.1,
    fun i hlt => h.2.2.1 i (by omega) hlt,
    fun hall => h.2.2.2.1 (fun i _ hile => hall i hile),
    fun i hile hio hprev => h.2.2.2.2 i (by omega) hile hio (fun j _ hjlt => hprev j hjlt)⟩

/-- Witness for C4: with one allowed retry and transport errors
throughout, the transport error is re-raised after two attempts; with a
non-transport error at the second attempt of three, it propagates after
exactly two attempts. -/
theorem httpx_request_retry_policy_witness :
    httpxRequest 1 (fun _ => .httpError) = (.transportRaised, 2) ∧
    httpxRequest 2 (fun i => if i == 0 then .httpError else .otherError) = (.otherRaised, 2) := by
  constructor
  · exact (httpx_request_retry_policy 1 (fun _ => .httpError)).2.2.1 (fun i _ => rfl)
  · exact (httpx_request_retry_policy 2 (fun i => if i == 0 then .httpError else .otherError)).2.2.2
      1 (by omega) rfl
      (fun j hj => by
        have : j = 0 := by omega
        subst this
        rfl)

/-- C10: with a logged-in session, `rate_book` rejects a ranking outside
`[0, 5]` with a `ValueError` before issuing any HTTP request; for a
ranking inside `[0, 5]` the request is issued and the call returns `True`
exactly when the response reports success, raising otherwise. -/
theorem rate_book_range_guard (ranking : ℚ) (resp : HttpResponse) :
    (¬ (0 ≤ ranking ∧ ranking ≤ 5) → rate_book true ranking resp = (.valueError, false)) ∧
    (0 ≤ ranking → ranking ≤ 5 →
      (rate_book true ranking resp).2 = true ∧
      ((rate_book true ranking resp).1 = .okTrue ↔ reportsSuccess resp = true)) := by
  obtain ⟨se, body⟩ := resp
  constructor
  · intro h
    have hc : (decide (0 ≤ ranking) && decide (ranking ≤ 5)) = false := by
      by_cases h0 : 0 ≤ ranking
      · by_cases h5 : ranking ≤ 5
        · exact absurd ⟨h0, h5⟩ h
        · simp [h5]
      · simp [h0]
    simp [rate_book, hc]
  · intro h0 h5
    have hc : (decide (0 ≤ ranking) && decide (ranking ≤ 5)) = true := by simp [h0, h5]
    cases se
    · cases body with
      | none => simp [rate_book, reportsSuccess, hc]
      | some j =>
        cases j with
        | jobj fs =>
          cases ht : ((lookupField fs "success").getD .jnull).truthy <;>
            simp [rate_book, reportsSuccess, hc, ht]
        | jnull => simp [rate_book, reportsSuccess, hc]
        | jbool b => simp [rate_book, reportsSuccess, hc]
        | jnum n => simp [rate_book, reportsSuccess, hc]
        | jstr s => simp [rate_book, reportsSuccess, hc]
        | jarr xs => simp [rate_book, reportsSuccess, hc]
    · simp [rate_book, reportsSuccess, hc]

/-- Witness for C10: ranking `6` is rejected without a request; ranking
`4` issues the request, and succeeds exactly on a success-reporting
response. -/
theorem rate_book_range_guard_witness :
    rate_book true 6 ⟨false, some (.jobj [("success", .jbool true)])⟩ = (.valueError, false) ∧
    (rate_book true 4 ⟨false, some (.jobj [("success", .jbool true)])⟩).2 = true ∧
    ((rate_book true 4 ⟨false, some (.jobj [("success", .jbool true)])⟩).1 = .okTrue ↔
      reportsSuccess ⟨false, some (.jobj [("success", .jbool true)])⟩ = true) := by
  refine ⟨(rate_book_range_guard 6 _).1 ?_, ((rate_book_range_guard 4 _).2 ?_ ?_).1,
    ((rate_book_range_guard 4 _).2 ?_ ?_).2⟩ <;> norm_num

/-- C6: a login response whose JSON body has `success` equal to `false`
or missing makes `login` raise `ConnectionError` and leaves the logged-in
state `False`; the state is set to `True` only on responses reporting
success. -/
theorem login_failure_state (resp : HttpResponse) (myInfoOk : Bool)
    (fs : List (String × JVal)) :
    (resp.statusError = false → resp.body = some (.jobj fs) →
      (lookupField fs "success" = none ∨ lookupField fs "success" = some (.jbool false)) →
      login_step false resp myInfoOk = (false, .connectionError)) ∧
    (∀ st r2 mi, (login_step st r2 mi).1 = true →
      st = true ∨ loginReportsSuccess r2 = true) := by
  constructor
  · obtain ⟨se, body⟩ := resp
    intro hse hbody hsucc
    dsimp only at hse hbody
    subst hse
    subst hbody
    rcases hsucc with h | h <;> simp [login_step, h, JVal.truthy]
  · intro st r2 mi h
    obtain ⟨se, body⟩ := r2
    cases se
    · cases body with
      | none =>
        left
        simpa [login_step] using h
      | some j =>
        cases j with
        | jobj gs =>
          cases ht : ((lookupField gs "success").getD (.jbool false)).truthy
          · left
            simpa [login_step, ht] using h
          · right
            simp [loginReportsSuccess, ht]
        | jnull => left; simpa [login_step] using h
        | jbool b => left; simpa [login_step] using h
        | jnum n => left; simpa [login_step] using h
        | jstr s => left; simpa [login_step] using h
        | jarr xs => left; simpa [login_step] using h
    · left
      simpa [login_step] using h

/-- Witness for C6: `{"success": false}` leaves the state `False` with a
`ConnectionError`, and a state that turned `True` starting from `False`
came from a success-reporting response. -/
theorem login_failure_state_witness :
    login_step false ⟨false, some (.jobj [("success", .jbool false)])⟩ true =
      (false, .connectionError) ∧
    (false = true ∨
      loginReportsSuccess ⟨false, some (.jobj [("success", .jbool true)])⟩ = true) :=
  ⟨(login_failure_state ⟨false, some (.jobj [("success", .jbool false)])⟩ true
      [("success", .jbool false)]).1 rfl rfl (Or.inr rfl),
   (login_failure_state ⟨false, none⟩ true []).2 false
      ⟨false, some (.jobj [("success", .jbool true)])⟩ true rfl⟩

/-- C7 counterexample: a user profile response `{"success": true}` whose
body lacks the `response` key makes `UserService.get_by_id` raise an
uncaught `KeyError`, not the claimed not-found error. -/
theorem user_get_by_id_missing_response_keyerror :
    user_get_by_id "https://www.skoob.com.br" true false (.jobj [("success", .jbool true)]) =
      .uncaughtError ∧
    ¬ user_get_by_id "https://www.skoob.com.br" true false (.jobj [("success", .jbool true)]) =
      .notFound := by
  have h1 : user_get_by_id "https://www.skoob.com.br" true false
      (.jobj [("success", .jbool true)]) = .uncaughtError := rfl
  refine ⟨h1, fun h => ?_⟩
  rw [h1] at h
  exact UserGetById.noConfusion h

/-- C7 amended: for a JSON body lacking the `response` key,
`BookService.get_by_id` always raises the not-found error;
`UserService.get_by_id` (logged in, status OK) raises the not-found error
when the body's `success` is falsy or missing, but lets a `KeyError`
escape when `success` is truthy. -/
theorem get_by_id_missing_response (baseUrl : String) (fs : List (String × JVal)) :
    (lookupField fs "response" = none →
      book_get_by_id baseUrl (.jobj fs) =
        .notFound (pyStr ((lookupField fs "cod_description").getD
          (.jstr "No description provided.")))) ∧
    (lookupField fs "response" = none →
      ((lookupField fs "success").getD .jnull).truthy = false →
      user_get_by_id baseUrl true false (.jobj fs) = .notFound) ∧
    (lookupField fs "response" = none →
      ((lookupField fs "success").getD .jnull).truthy = true →
      user_get_by_id baseUrl true false (.jobj fs) = .uncaughtError) := by
  refine ⟨fun h => ?_, fun h hsucc => ?_, fun h hsucc => ?_⟩
  · simp [book_get_by_id, h, JVal.truthy]
  · simp [user_get_by_id, h, hsucc]
  · simp [user_get_by_id, h, hsucc]

/-- Witness for C7 (amended): concrete bodies missing `response`. -/
theorem get_by_id_missing_response_witness :
    book_get_by_id "b" (.jobj [("success", .jbool false)]) =
      .notFound "No description provided." ∧
    user_get_by_id "b" true false (.jobj [("success", .jbool false)]) = .notFound ∧
    user_get_by_id "b" true false (.jobj [("success", .jbool true)]) = .uncaughtError :=
  ⟨(get_by_id_missing_response "b" [("success", .jbool false)]).1 rfl,
   (get_by_id_missing_response "b" [("success", .jbool false)]).2.1 rfl rfl,
   (get_by_id_missing_response "b" [("success", .jbool true)]).2.2 rfl rfl⟩

/-- Assigning a key makes it look up to the new value. -/
theorem lookup_setField_self (fs : List (String × JVal)) (k : String) (v : JVal) :
    lookupField (setField fs k v) k = some v := by
  induction fs with
  | nil => simp [setField, lookupField]
  | cons hd tl ih =>
    obtain ⟨k0, v0⟩ := hd
    by_cases h : (k0 == k) = true
    · simp [setField, lookupField, h]
    · simp [setField, lookupField, h, ih]

/-- Assigning a key leaves the other keys unchanged. -/
theorem lookup_setField_ne (fs : List (String × JVal)) (k k2 : String) (v : JVal)
    (h : k2 ≠ k) :
    lookupField (setField fs k v) k2 = lookupField fs k2 := by
  induction fs with
  | nil =>
    have hne : (k == k2) = false := by
      simp [Ne.symm h]
    simp [setField, lookupField, hne]
  | cons hd tl ih =>
    obtain ⟨k0, v0⟩ := hd
    by_cases h0 : (k0 == k) = true
    · have hk0 : k0 = k := by simpa using h0
      have hne : (k0 == k2) = false := by
        subst hk0
        simp [Ne.symm h]
      simp [setField, lookupField, h0, hne]
    · by_cases h2 : (k0 == k2) = true
      · simp [setField, lookupField, h0, h2]
      · simp [setField, lookupField, h0, h2, ih]

/-- The `serie` stage touches only the `serie` key. -/
theorem cleanSerie_preserves (fs : List (String × JVal)) (k : String) (h : k ≠ "serie") :
    lookupField (cleanSerie fs) k = lookupField fs k := by
  unfold cleanSerie
  cases hx : lookupField fs "serie" with
  | none => simp [lookup_setField_ne _ _ _ _ h]
  | some v =>
    cases ht : v.truthy <;> simp [ht, lookup_setField_ne _ _ _ _ h]

/-- The `volume` stage touches only the `volume` key. -/
theorem cleanVolume_preserves (fs : List (String × JVal)) (k : String) (h : k ≠ "volume") :
    lookupField (cleanVolume fs) k = lookupField fs k := by
  unfold cleanVolume
  cases hx : lookupField fs "volume" with
  | none => simp [lookup_setField_ne _ _ _ _ h]
  | some v =>
    by_cases ht : (!v.truthy || pyStr v == "0") = true <;>
      simp [ht, lookup_setField_ne _ _ _ _ h]

/-- The `mes` stage touches only the `mes` key. -/
theorem cleanMes_preserves (fs : List (String × JVal)) (k : String) (h : k ≠ "mes") :
    lookupField (cleanMes fs) k = lookupField fs k := by
  unfold cleanMes
  cases hx : lookupField fs "mes" with
  | none => simp [lookup_setField_ne _ _ _ _ h]
  | some v =>
    by_cases ht : (!v.truthy || pyStrip (pyStr v) == "") = true <;>
      simp [ht, lookup_setField_ne _ _ _ _ h]

/-- The `generos` stage touches only the `generos` key. -/
theorem cleanGeneros_preserves (fs : List (String × JVal)) (k : String) (h : k ≠ "generos") :
    lookupField (cleanGeneros fs) k = lookupField fs k := by
  unfold cleanGeneros
  cases hx : lookupField fs "generos" with
  | none => simp [lookup_setField_ne _ _ _ _ h]
  | some v =>
    cases ht : v.truthy <;> simp [ht, lookup_setField_ne _ _ _ _ h]

/-- A successful `autor` stage touches only the `autor` key. -/
theorem cleanAutor_preserves (fs fs3 : List (String × JVal)) (k : String)
    (hres : cleanAutor fs = some fs3) (h : k ≠ "autor") :
    lookupField fs3 k = lookupField fs k := by
  unfold cleanAutor at hres
  cases hx : lookupField fs "autor" with
  | none =>
    rw [hx] at hres
    dsimp only at hres
    rw [if_neg (by decide)] at hres
    exact Option.noConfusion hres
  | some v =>
    cases v with
    | jstr s =>
      rw [hx] at hres
      dsimp only at hres
      by_cases hl : (pyLower s == "não especificado") = true
      · rw [if_pos hl] at hres
        obtain rfl := Option.some.inj hres
        exact lookup_setField_ne _ _ _ _ h
      · rw [if_neg hl] at hres
        obtain rfl := Option.some.inj hres
        exact lookup_setField_ne _ _ _ _ h
    | jnull => rw [hx] at hres; exact Option.noConfusion hres
    | jbool b => rw [hx] at hres; exact Option.noConfusion hres
    | jnum n => rw [hx] at hres; exact Option.noConfusion hres
    | jarr xs => rw [hx] at hres; exact Option.noConfusion hres
    | jobj gs => rw [hx] at hres; exact Option.noConfusion hres

/-- The `isbn` stage: missing or `"0"`-stringifying values become `null`,
anything else is re-assigned unchanged. -/
theorem cleanIsbn_lookup (fs : List (String × JVal)) :
    lookupField (cleanIsbn fs) "isbn" =
      match lookupField fs "isbn" with
      | none => some .jnull
      | some v => if pyStr v == "0" then some .jnull else some v := by
  unfold cleanIsbn
  cases hx : lookupField fs "isbn" with
  | none => simp [lookup_setField_self]
  | some v =>
    by_cases h0 : (pyStr v == "0") = true <;> simp [h0, lookup_setField_self]

/-- C8: `_clean_book_json_data` maps an `isbn` field whose Python string
form is `"0"` to `None`, and leaves any other (numeric-string) `isbn`
value unchanged. -/
theorem clean_isbn_zero_to_none (baseUrl : String) (j out : JVal)
    (h : clean_book_json_data baseUrl j = some out) (v : JVal)
    (hv : j.get "isbn" = some v) :
    (pyStr v = "0" → out.get "isbn" = some .jnull) ∧
    (∀ s, v = .jstr s → allDigits1 s.toList = true → s ≠ "0" →
      out.get "isbn" = some (.jstr s)) := by
  cases j with
  | jobj fs0 =>
    have hv0 : lookupField fs0 "isbn" = some v := hv
    unfold clean_book_json_data at h
    dsimp only at h
    cases hurl : lookupField fs0 "url" with
    | none => rw [hurl] at h; exact Option.noConfusion h
    | some urlv =>
      rw [hurl] at h
      dsimp only at h
      cases hA : cleanAutor (cleanIsbn (setField fs0 "url" (.jstr (baseUrl ++ pyStr urlv)))) with
      | none => rw [hA] at h; exact Option.noConfusion h
      | some fs3 =>
        rw [hA] at h
        dsimp only at h
        cases hC : cleanCover (cleanMes (cleanVolume (cleanSerie fs3))) with
        | none => rw [hC] at h; exact Option.noConfusion h
        | some cover =>
          rw [hC] at h
          obtain rfl := Option.some.inj h
          have hout : (JVal.jobj (cleanGeneros (setField (cleanMes (cleanVolume (cleanSerie fs3)))
              "cover_url" (.jstr cover)))).get "isbn" =
              (if pyStr v == "0" then some .jnull else some v) := by
            show lookupField (cleanGeneros (setField (cleanMes (cleanVolume (cleanSerie fs3)))
              "cover_url" (.jstr cover))) "isbn" = _
            rw [cleanGeneros_preserves _ _ (by decide),
              lookup_setField_ne _ _ _ _ (by decide),
              cleanMes_preserves _ _ (by decide),
              cleanVolume_preserves _ _ (by decide),
              cleanSerie_preserves _ _ (by decide),
              cleanAutor_preserves _ _ _ hA (by decide),
              cleanIsbn_lookup,
              lookup_setField_ne _ _ _ _ (by decide),
              hv0]
          constructor
          · intro hz
            rw [hout, if_pos (by simp [hz])]
          · intro s hs _ hnz
            subst hs
            rw [hout, if_neg (by simpa [pyStr] using hnz)]
  | jnull => exact Option.noConfusion h
  | jbool b => exact Option.noConfusion h
  | jnum n => exact Option.noConfusion h
  | jstr s => exact Option.noConfusion h
  | jarr xs => exact Option.noConfusion h

/-- Witness for C8: a record with `isbn: "0"` cleans to `isbn: None`; a
record with a numeric ISBN string keeps it unchanged. -/
theorem clean_isbn_zero_to_none_witness :
    cleanFixZero.get "isbn" = some .jnull ∧
    cleanFixIsbn.get "isbn" = some (.jstr "9788533613379") :=
  ⟨(clean_isbn_zero_to_none "https://www.skoob.com.br" bookJsonFixtureZero cleanFixZero
      rfl (.jstr "0") rfl).1 rfl,
   (clean_isbn_zero_to_none "https://www.skoob.com.br" bookJsonFixtureIsbn cleanFixIsbn
      rfl (.jstr "9788533613379") rfl).2 "9788533613379" rfl rfl (by decide)⟩

/-- On a sorted queue, `_trim` removes exactly the timestamps that left
the window. -/
theorem trim_eq_filter (period now : ℚ) (l : List ℚ) (hl : l.Sorted (· ≤ ·)) :
    trimCalls period now l = l.filter (fun c => decide (now - c < period)) := by
  induction l with
  | nil => rfl
  | cons c rest ih =>
    rcases List.sorted_cons.mp hl with ⟨hc, hrest⟩
    by_cases h : period ≤ now - c
    · have hpc : (decide (now - c < period)) = false := by
        simp only [decide_eq_false_iff_not, not_lt]
        exact h
      simp only [trimCalls, if_pos h, List.filter_cons, hpc, Bool.false_eq_true,
        if_false, ih hrest]
    · have hpc : (decide (now - c < period)) = true := by
        simp only [decide_eq_true_eq]
        linarith [not_le.mp h]
      have hall : ∀ x ∈ rest, (decide (now - x < period)) = true := by
        intro x hx
        simp only [decide_eq_true_eq]
        have hcx := hc x hx
        have := not_le.mp h
        linarith
      simp only [trimCalls, if_neg h, List.filter_cons, hpc, if_true]
      rw [List.filter_eq_self.mpr hall]

/-- Re-filtering at a later reference time collapses to a single filter. -/
theorem filter_window_compose (period t1 t2 : ℚ) (h12 : t1 ≤ t2) (l : List ℚ) :
    (l.filter (fun c => decide (t1 - c < period))).filter
        (fun c => decide (t2 - c < period)) =
      l.filter (fun c => decide (t2 - c < period)) := by
  induction l with
  | nil => rfl
  | cons a rest ih =>
    by_cases h2 : t2 - a < period
    · have h1 : t1 - a < period := by linarith
      simp [List.filter_cons, h1, h2, ih]
    · by_cases h1 : t1 - a < period <;> simp [List.filter_cons, h1, h2, ih]

/-- Filtering by a stronger predicate yields no more elements. -/
theorem length_filter_le_of_imp (l : List ℚ) (p q : ℚ → Bool)
    (h : ∀ a, p a = true → q a = true) :
    (l.filter p).length ≤ (l.filter q).length := by
  induction l with
  | nil => simp
  | cons a rest ih =>
    by_cases hp : p a = true
    · have hq := h a hp
      simp only [List.filter_cons, hp, hq, if_true, List.length_cons]
      omega
    · by_cases hq : q a = true <;>
        simp only [List.filter_cons, hp, hq, Bool.false_eq_true, if_false, if_true,
          List.length_cons] <;> omega

/-- Core append step: recording one timestamp `tnew` that has strictly
fewer than `maxCalls` predecessors inside its window preserves the
rate-limiter invariant. -/
theorem rl_append_inv (maxCalls : ℕ) (period : ℚ) (hist pre : List ℚ) (tnew : ℚ)
    (hper : 0 < period)
    (hsort : hist.Sorted (· ≤ ·))
    (hboundnew : ∀ c ∈ hist, c ≤ tnew)
    (hpre : pre = hist.filter (fun c => decide (tnew - c < period)))
    (hprelen : pre.length < maxCalls)
    (hwin : ∀ t, windowCount period hist t ≤ maxCalls) :
    RLInv maxCalls period (pre ++ [tnew]) (hist ++ [tnew]) tnew := by
  have htnew : (decide (tnew - tnew < period)) = true := by
    simp only [decide_eq_true_eq]
    linarith
  refine ⟨?_, ?_, ?_, ?_, ?_⟩
  · refine List.pairwise_append.mpr ⟨hsort, List.pairwise_singleton _ _, ?_⟩
    intro a ha b hb
    rw [List.mem_singleton] at hb
    subst hb
    exact hboundnew a ha
  · intro c hc
    rcases List.mem_append.mp hc with h | h
    · exact hboundnew c h
    · rw [List.mem_singleton] at h
      subst h
      exact le_refl _
  · rw [List.filter_append, hpre, List.filter_cons, List.filter_nil, if_pos htnew]
  · have : (pre ++ [tnew]).length = pre.length + 1 := by simp
    omega
  · intro t
    unfold windowCount
    rw [List.filter_append, List.length_append]
    by_cases hin : (decide (t ≤ tnew) && decide (tnew < t + period)) = true
    · have hsing : ([tnew].filter fun c => decide (t ≤ c) && decide (c < t + period)) = [tnew] := by
        simp [List.filter_cons, hin]
      rw [hsing]
      have hmono : windowCount period hist t ≤ pre.length := by
        rw [hpre]
        apply length_filter_le_of_imp
        intro a ha
        simp only [Bool.and_eq_true, decide_eq_true_eq] at ha hin ⊢
        linarith [ha.1, ha.2, hin.1, hin.2]
      have := hmono
      unfold windowCount at this
      simp only [List.length_singleton]
      omega
    · have hsing : ([tnew].filter fun c => decide (t ≤ c) && decide (c < t + period)) = [] := by
        simp only [List.filter_cons, List.filter_nil]
        rw [if_neg (by simpa using hin)]
      rw [hsing]
      have := hwin t
      unfold windowCount at this
      simp only [List.length_nil]
      omega

/-- One `acquire` step preserves the invariant, with the recorded time not
earlier than the previous one. -/
theorem acquireStep_inv (maxCalls : ℕ) (period : ℚ) (calls hist : List ℚ) (tprev : ℚ)
    (inp : AcqInput) (hmax : 1 ≤ maxCalls) (hper : 0 < period)
    (hinv : RLInv maxCalls period calls hist tprev)
    (hnow : tprev ≤ inp.now) (hslack : 0 ≤ inp.slack) :
    RLInv maxCalls period (acquireStep maxCalls period calls inp).1
      (hist ++ [(acquireStep maxCalls period calls inp).2])
      (acquireStep maxCalls period calls inp).2 ∧
    tprev ≤ (acquireStep maxCalls period calls inp).2 := by
  obtain ⟨hsort, hbound, hcalls, hlen, hwin⟩ := hinv
  obtain ⟨now, slack⟩ := inp
  dsimp only at hnow hslack ⊢
  have hcallsSorted : calls.Sorted (· ≤ ·) := by
    rw [hcalls]
    exact hsort.filter _
  have hs1 : trimCalls period now calls =
      hist.filter (fun c => decide (now - c < period)) := by
    rw [trim_eq_filter _ _ _ hcallsSorted, hcalls, filter_window_compose _ _ _ hnow]
  have hs1len : (trimCalls period now calls).length ≤ maxCalls := by
    rw [hs1]
    calc (hist.filter (fun c => decide (now - c < period))).length
        ≤ (hist.filter (fun c => decide (tprev - c < period))).length := by
          apply length_filter_le_of_imp
          intro a ha
          simp only [decide_eq_true_eq] at ha ⊢
          linarith
      _ ≤ maxCalls := by rw [← hcalls]; exact hlen
  by_cases hfull : maxCalls ≤ (trimCalls period now calls).length
  · -- queue at capacity: sleep, re-trim, append
    have hlen1 : 1 ≤ (trimCalls period now calls).length := le_trans hmax hfull
    obtain ⟨c0, tail, hc0⟩ : ∃ c0 tail, trimCalls period now calls = c0 :: tail := by
      cases hx : trimCalls period now calls with
      | nil => rw [hx] at hlen1; simp at hlen1
      | cons a b => exact ⟨a, b, rfl⟩
    have hc0mem : (decide (now - c0 < period)) = true := by
      have : c0 ∈ hist.filter (fun c => decide (now - c < period)) := by
        rw [← hs1, hc0]
        exact List.mem_cons_self _ _
      exact (List.mem_filter.mp this).2
    have hc0lt : now - c0 < period := by simpa using hc0mem
    have hstep : acquireStep maxCalls period calls ⟨now, slack⟩ =
        (trimCalls period (now + (period - (now - c0)) + slack) (c0 :: tail) ++
          [now + (period - (now - c0)) + slack],
         now + (period - (now - c0)) + slack) := by
      simp only [acquireStep, hc0]
      rw [if_pos (by rw [← hc0]; exact hfull)]
    rw [hstep]
    have hnow2 : now ≤ now + (period - (now - c0)) + slack := by linarith
    have hs1sorted : (c0 :: tail).Sorted (· ≤ ·) := by
      rw [← hc0, hs1]
      exact hsort.filter _
    have hpre : trimCalls period (now + (period - (now - c0)) + slack) (c0 :: tail) =
        hist.filter (fun c =>
          decide (now + (period - (now - c0)) + slack - c < period)) := by
      rw [trim_eq_filter _ _ _ hs1sorted, ← hc0, hs1,
        filter_window_compose _ _ _ hnow2]
    have hc0out : (decide (now + (period - (now - c0)) + slack - c0 < period)) = false := by
      simp only [decide_eq_false_iff_not, not_lt]
      linarith
    have hprelen : (trimCalls period (now + (period - (now - c0)) + slack)
        (c0 :: tail)).length < maxCalls := by
      have heq : trimCalls period (now + (period - (now - c0)) + slack) (c0 :: tail) =
          (c0 :: tail).filter (fun c =>
            decide (now + (period - (now - c0)) + slack - c < period)) := by
        rw [trim_eq_filter _ _ _ hs1sorted]
      rw [heq]
      have : ((c0 :: tail).filter (fun c =>
          decide (now + (period - (now - c0)) + slack - c < period))).length ≤
          tail.length := by
        simp only [List.filter_cons, hc0out, Bool.false_eq_true, if_false]
        exact List.length_filter_le _ _
      have htail : tail.length + 1 ≤ maxCalls := by
        have := hs1len
        rw [hc0] at this
        simpa using this
      omega
    constructor
    · exact rl_append_inv maxCalls period hist _ _ hper hsort
        (fun c hc => le_trans (le_trans (hbound c hc) hnow) hnow2)
        hpre hprelen hwin
    · exact le_trans hnow hnow2
  · -- below capacity: append directly
    have hstep : acquireStep maxCalls period calls ⟨now, slack⟩ =
        (trimCalls period now calls ++ [now], now) := by
      simp only [acquireStep]
      rw [if_neg hfull]
    rw [hstep]
    constructor
    · exact rl_append_inv maxCalls period hist _ _ hper hsort
        (fun c hc => le_trans (hbound c hc) hnow)
        hs1 (by omega) hwin
    · exact hnow

/-- Every history produced by a valid run from an invariant state keeps
every window at or below capacity. -/
theorem runAcquires_window (maxCalls : ℕ) (period : ℚ) (hmax : 1 ≤ maxCalls)
    (hper : 0 < period) :
    ∀ (inps : List AcqInput) (calls hist : List ℚ) (tprev : ℚ),
      RLInv maxCalls period calls hist tprev →
      ValidRun maxCalls period calls tprev inps →
      ∀ t, windowCount period
        (hist ++ (runAcquires maxCalls period calls inps).2) t ≤ maxCalls := by
  intro inps
  induction inps with
  | nil =>
    intro calls hist tprev hinv _ t
    simpa [runAcquires] using hinv.2.2.2.2 t
  | cons inp rest ih =>
    intro calls hist tprev hinv hvalid t
    obtain ⟨hnow, hslack, hvrest⟩ := hvalid
    have hstep := acquireStep_inv maxCalls period calls hist tprev inp hmax hper
      hinv hnow hslack
    have hrec := ih (acquireStep maxCalls period calls inp).1
      (hist ++ [(acquireStep maxCalls period calls inp).2])
      (acquireStep maxCalls period calls inp).2 hstep.1 hvrest t
    simp only [runAcquires]
    rw [List.append_assoc] at hrec
    simpa using hrec

/-- C2: in the monotone clock model, every sequence of
`RateLimiter.acquire` (equivalently `acquire_async`) calls records at most
`max_calls` timestamps inside any sliding window of length `period`: each
acquire prunes entries older than `period` and, at capacity, sleeps until
the oldest entry leaves the window before appending its own timestamp. -/
theorem rate_limiter_sliding_window (maxCalls : ℕ) (period : ℚ) (t0 : ℚ)
    (inps : List AcqInput) (hmax : 1 ≤ maxCalls) (hper : 0 < period)
    (hvalid : ValidRun maxCalls period [] t0 inps) :
    ∀ t, windowCount period (runAcquires maxCalls period [] inps).2 t ≤ maxCalls := by
  intro t
  have hinv0 : RLInv maxCalls period [] [] t0 := by
    refine ⟨List.sorted_nil, ?_, rfl, ?_, ?_⟩
    · intro c hc
      simp at hc
    · simp
    · intro s
      simp [windowCount]
  have h := runAcquires_window maxCalls period hmax hper inps [] [] t0 hinv0 hvalid t
  simpa using h

/-- Witness for C2: with `max_calls = 1`, `period = 1` and two immediate
acquires, every unit window holds at most one recorded timestamp. -/
theorem rate_limiter_sliding_window_witness :
    windowCount 1 (runAcquires 1 1 []
      [{ now := 0, slack := 0 }, { now := 0, slack := 0 }]).2 0 ≤ 1 :=
  rate_limiter_sliding_window 1 1 0
    [{ now := 0, slack := 0 }, { now := 0, slack := 0 }]
    (le_refl 1) (by norm_num)
    (by
      simp only [ValidRun, acquireStep, trimCalls]
      norm_num) 0

/-- The map-then-keep-truthy pipeline of `BookService.search` is the
order-preserving partial map of the item parser. -/
theorem searchCleanedResults_eq_filterMap (baseUrl : String) (divs : List HNode) :
    searchCleanedResults baseUrl divs = divs.filterMap (parse_search_result baseUrl) := by
  unfold searchCleanedResults
  induction divs with
  | nil => rfl
  | cons d rest ih =>
    cases hp : parse_search_result baseUrl d <;>
      simp [List.filterMap_cons, List.filter_cons, hp, ih]

/-- C9: `BookService.search` returns exactly the parses of the well-formed
items in page order; an item without the `capa-link-item` container, or
whose URL yields no book or edition id, parses to `None` and is dropped
without affecting the other items. -/
theorem search_skips_malformed (baseUrl : String) (divs ds1 ds2 : List HNode) (bad : HNode) :
    searchCleanedResults baseUrl divs = divs.filterMap (parse_search_result baseUrl) ∧
    (safe_find (some bad) "a" [.classHas "capa-link-item"] = none →
      parse_search_result baseUrl bad = none) ∧
    (∀ c, safe_find (some bad) "a" [.classHas "capa-link-item"] = some c →
      (get_book_id_from_url (baseUrl ++ pyStrOptStr (nodeAttr c "href")) = none ∨
        get_book_edition_id_from_url (baseUrl ++ pyStrOptStr (nodeAttr c "href")) = none) →
      parse_search_result baseUrl bad = none) ∧
    (parse_search_result baseUrl bad = none →
      searchCleanedResults baseUrl (ds1 ++ bad :: ds2) =
        searchCleanedResults baseUrl (ds1 ++ ds2)) := by
  refine ⟨searchCleanedResults_eq_filterMap baseUrl divs, ?_, ?_, ?_⟩
  · intro h
    simp [parse_search_result, h]
  · intro c hc hor
    simp only [parse_search_result, hc]
    rcases hor with h1 | h2
    · cases hx : get_book_edition_id_from_url (baseUrl ++ pyStrOptStr (nodeAttr c "href")) <;>
        simp [h1, hx]
    · cases hx : get_book_id_from_url (baseUrl ++ pyStrOptStr (nodeAttr c "href")) <;>
        simp [h2, hx]
  · intro hbad
    rw [searchCleanedResults_eq_filterMap, searchCleanedResults_eq_filterMap,
      List.filterMap_append, List.filterMap_append, List.filterMap_cons, hbad]

/-- Witness for C9: a bare `div` has no container and parses to `None`,
and inserting it between two well-formed items leaves the results those of
the well-formed items alone. -/
theorem search_skips_malformed_witness :
    parse_search_result "b" (HNode.elem "div" [] []) = none ∧
    searchCleanedResults "b" ([searchItemDiv] ++ HNode.elem "div" [] [] :: [searchItemDiv]) =
      searchCleanedResults "b" ([searchItemDiv] ++ [searchItemDiv]) := by
  have hbad : parse_search_result "b" (HNode.elem "div" [] []) = none :=
    (search_skips_malformed "b" [] [] [] (HNode.elem "div" [] [])).2.1 rfl
  exact ⟨hbad,
    (search_skips_malformed "b" [] [searchItemDiv] [searchItemDiv]
      (HNode.elem "div" [] [])).2.2.2 hbad⟩

/-- C1 counterexample: on a fetched page with 31 well-formed result items,
a total of 1000 and no next-page marker, `BookService.search` returns 31
results against `limit = 30`, and `has_next_page = True` although the
marker is absent — the claimed bound and marker equivalence both fail. -/
theorem pagination_claim_false_on_search :
    ¬ (((book_search "https://www.skoob.com.br" searchFixture31 1).results.length : ℤ) ≤
        (book_search "https://www.skoob.com.br" searchFixture31 1).limit ∧
      ((book_search "https://www.skoob.com.br" searchFixture31 1).has_next_page = true ↔
        (safe_find (some searchFixture31) "a" [.classHas "proximo"]).isSome = true)) := by
  decide

/-- C1 amended: `BookService.search` sets `has_next_page` to
`page * 30 < total` (not from a marker element) and returns one result per
parseable item div (not clamped to `limit`); `get_reviews`,
`get_users_by_status` and `UserService.search` set `has_next_page` exactly
when an `a.proximo` element is present in the fetched page. -/
theorem pagination_page_invariants (baseUrl : String) (soup : HNode) (page limit : ℤ)
    (bookId : ℤ) (edArg : Option ℤ) :
    ((book_search baseUrl soup page).has_next_page = true ↔
      page * 30 < ((extract_total_results soup : ℕ) : ℤ)) ∧
    (book_search baseUrl soup page).results.length ≤
      (safe_find_all (some soup) "div" [.classHas "box_lista_busca_vertical"]).length ∧
    (∀ pg, get_reviews soup bookId edArg page = .ok pg →
      (pg.has_next_page = true ↔
        (safe_find (some soup) "a" [.classHas "proximo"]).isSome = true)) ∧
    (∀ pg, get_users_by_status soup limit page = .ok pg →
      (pg.has_next_page = true ↔
        (safe_find (some soup) "a" [.classHas "proximo"]).isSome = true)) ∧
    (∀ pg, user_search_page baseUrl soup page limit = .ok pg →
      (pg.has_next_page = true ↔
        (safe_find (some soup) "a" [.classHas "proximo"]).isSome = true)) := by
  refine ⟨?_, ?_, ?_, ?_, ?_⟩
  · simp [book_search]
  · have : (book_search baseUrl soup page).results =
        searchCleanedResults baseUrl
          (safe_find_all (some soup) "div" [.classHas "box_lista_busca_vertical"]) := rfl
    rw [this, searchCleanedResults_eq_filterMap]
    exact List.length_filterMap_le _ _
  · intro pg h
    unfold get_reviews at h
    have hgo : ∀ (eid : Option ℤ),
        (match traverseReviews bookId eid
            (safe_find_all (some soup) "div" [.idResenhaNum]) with
          | Except.error e => Except.error e
          | Except.ok opts =>
            Except.ok
              { results := opts.reduceOption
                limit := 50
                page := page
                total := some (opts.reduceOption.length : ℤ)
                has_next_page :=
                  (safe_find (some soup) "a" [.classHas "proximo"]).isSome } :
          Except Unit (Pagination BookReview)) = Except.ok pg →
        (pg.has_next_page = true ↔
          (safe_find (some soup) "a" [.classHas "proximo"]).isSome = true) := by
      intro eid hh
      cases htr : traverseReviews bookId eid
          (safe_find_all (some soup) "div" [.idResenhaNum]) with
      | error e => rw [htr] at hh; exact Except.noConfusion hh
      | ok opts =>
        rw [htr] at hh
        obtain rfl := Except.ok.inj hh
        simp
    cases edArg with
    | some e =>
      dsimp only at h
      exact hgo (some e) h
    | none =>
      dsimp only at h
      cases hed : extract_edition_id_from_reviews_page soup with
      | error e => rw [hed] at h; exact Except.noConfusion h
      | ok oe =>
        rw [hed] at h
        dsimp only at h
        exact hgo oe h
  · intro pg h
    unfold get_users_by_status at h
    split at h
    · exact Except.noConfusion h
    · obtain rfl := Except.ok.inj h
      simp
  · intro pg h
    unfold user_search_page at h
    dsimp only at h
    split at h
    · exact Except.noConfusion h
    · obtain rfl := Except.ok.inj h
      simp

/-- Witness for C1 (amended): the empty page gives `has_next_page = False`
on all four endpoints, matching the absent marker and the zero total. -/
theorem pagination_page_invariants_witness :
    ((book_search "b" fixtureEmptyPage 1).has_next_page = true ↔
      (1 : ℤ) * 30 < ((extract_total_results fixtureEmptyPage : ℕ) : ℤ)) ∧
    (reviewsFixturePage.has_next_page = true ↔
      (safe_find (some fixtureEmptyPage) "a" [.classHas "proximo"]).isSome = true) ∧
    (usersFixturePage.has_next_page = true ↔
      (safe_find (some fixtureEmptyPage) "a" [.classHas "proximo"]).isSome = true) ∧
    (userSearchFixturePage.has_next_page = true ↔
      (safe_find (some fixtureEmptyPage) "a" [.classHas "proximo"]).isSome = true) :=
  ⟨(pagination_page_invariants "b" fixtureEmptyPage 1 100 1 none).1,
   (pagination_page_invariants "b" fixtureEmptyPage 1 100 1 none).2.2.1
      reviewsFixturePage rfl,
   (pagination_page_invariants "b" fixtureEmptyPage 1 500 1 none).2.2.2.1
      usersFixturePage rfl,
   (pagination_page_invariants "b" fixtureEmptyPage 1 100 1 none).2.2.2.2
      userSearchFixturePage rfl⟩

end Pyskoob
